import Mathlib

/-!
Verification of the a22-runtime core against its specification.

The TypeScript sources are shallowly embedded: each class method becomes a
Lean function over explicit state, JavaScript exceptions become `Except`,
`undefined`/optional fields become `Option`, and JS numbers (where they
matter) become `ℚ`. Asynchronous leaf operations (HTTP calls, model
providers, timers) are passed in as explicit function parameters so the
surrounding control flow can be verified.
-/

namespace A22

/-! ### Policy enforcement (security/policy: PolicyEnforcer)

Embeds the `PolicyEnforcer` class. A policy holds optional allow/deny
lists per resource kind plus optional numeric limits. In the source,
`policy.deny?.tools?.includes(x)` is falsy when `deny` or `deny.tools`
is absent; `if (this.policy.allow?.tools)` is truthy whenever the array
exists (even empty). Limit checks use `if (limit && v > limit)`, so a
limit of 0 is falsy and disables the check. -/

structure ResourceLimits where
  max_memory_mb : Option ℚ
  max_execution_time : Option ℚ
  max_tool_calls : Option ℚ
  max_workflow_depth : Option ℚ
deriving DecidableEq

structure PolicyAllow where
  tools : Option (List String)
  workflows : Option (List String)
  data : Option (List String)
  capabilities : Option (List String)
deriving DecidableEq

structure PolicyDeny where
  tools : Option (List String)
  workflows : Option (List String)
  data : Option (List String)
deriving DecidableEq

structure Policy where
  allow : Option PolicyAllow
  deny : Option PolicyDeny
  limits : Option ResourceLimits
deriving DecidableEq

inductive PolicyError where
  | toolDenied (id : String)
  | toolNotAllowed (id : String)
  | workflowDenied (id : String)
  | workflowNotAllowed (id : String)
  | dataDenied (id : String)
  | dataNotAllowed (id : String)
  | capabilityNotAllowed (id : String)
  | memoryLimitExceeded (used limit : ℚ)
  | executionTimeLimitExceeded (t limit : ℚ)
  | toolCallsLimitExceeded (n limit : ℚ)
  | workflowDepthLimitExceeded (d limit : ℚ)
deriving DecidableEq

/-- `policy.deny?.tools?.includes(toolId)` -/
def deniedTool (p : Policy) (toolId : String) : Bool :=
  match p.deny with
  | some d => match d.tools with
    | some ts => ts.contains toolId
    | none => false
  | none => false

/-- `policy.deny?.workflows?.includes(workflowId)` -/
def deniedWorkflow (p : Policy) (workflowId : String) : Bool :=
  match p.deny with
  | some d => match d.workflows with
    | some ws => ws.contains workflowId
    | none => false
  | none => false

/-- `policy.deny?.data?.includes(dataId)` -/
def deniedData (p : Policy) (dataId : String) : Bool :=
  match p.deny with
  | some d => match d.data with
    | some ds => ds.contains dataId
    | none => false
  | none => false

/-- `policy.allow?.tools` (present only when both `allow` and its `tools`
array exist; an empty array still counts as present). -/
def allowTools (p : Policy) : Option (List String) :=
  p.allow.bind PolicyAllow.tools

def allowWorkflows (p : Policy) : Option (List String) :=
  p.allow.bind PolicyAllow.workflows

def allowData (p : Policy) : Option (List String) :=
  p.allow.bind PolicyAllow.data

def allowCapabilities (p : Policy) : Option (List String) :=
  p.allow.bind PolicyAllow.capabilities

/-- `PolicyEnforcer.checkToolAccess`: deny list first, then the allow
list when it exists. -/
def checkToolAccess (p : Policy) (toolId : String) : Except PolicyError Unit :=
  if deniedTool p toolId then
    .error (.toolDenied toolId)
  else
    match allowTools p with
    | some ts =>
      if ts.contains toolId then .ok () else .error (.toolNotAllowed toolId)
    | none => .ok ()

/-- `PolicyEnforcer.checkWorkflowAccess` -/
def checkWorkflowAccess (p : Policy) (workflowId : String) : Except PolicyError Unit :=
  if deniedWorkflow p workflowId then
    .error (.workflowDenied workflowId)
  else
    match allowWorkflows p with
    | some ws =>
      if ws.contains workflowId then .ok () else .error (.workflowNotAllowed workflowId)
    | none => .ok ()

/-- `PolicyEnforcer.checkDataAccess` -/
def checkDataAccess (p : Policy) (dataId : String) : Except PolicyError Unit :=
  if deniedData p dataId then
    .error (.dataDenied dataId)
  else
    match allowData p with
    | some ds =>
      if ds.contains dataId then .ok () else .error (.dataNotAllowed dataId)
    | none => .ok ()

/-- `PolicyEnforcer.checkCapabilityAccess` (allow-list only; no deny list
exists for capabilities). -/
def checkCapabilityAccess (p : Policy) (capabilityId : String) : Except PolicyError Unit :=
  match allowCapabilities p with
  | some cs =>
    if cs.contains capabilityId then .ok () else .error (.capabilityNotAllowed capabilityId)
  | none => .ok ()

/-- `PolicyEnforcer.checkMemoryLimit`: `if (limit && used > limit) throw`.
A JS limit of `0` or `undefined` is falsy, so the check is skipped. -/
def checkMemoryLimit (p : Policy) (usedMemoryMb : ℚ) : Except PolicyError Unit :=
  match p.limits.bind ResourceLimits.max_memory_mb with
  | some l => if l ≠ 0 ∧ usedMemoryMb > l then .error (.memoryLimitExceeded usedMemoryMb l) else .ok ()
  | none => .ok ()

/-- `PolicyEnforcer.checkExecutionTimeLimit` -/
def checkExecutionTimeLimit (p : Policy) (executionTimeMs : ℚ) : Except PolicyError Unit :=
  match p.limits.bind ResourceLimits.max_execution_time with
  | some l => if l ≠ 0 ∧ executionTimeMs > l then .error (.executionTimeLimitExceeded executionTimeMs l) else .ok ()
  | none => .ok ()

/-- `PolicyEnforcer.checkToolCallsLimit` -/
def checkToolCallsLimit (p : Policy) (toolCallCount : ℚ) : Except PolicyError Unit :=
  match p.limits.bind ResourceLimits.max_tool_calls with
  | some l => if l ≠ 0 ∧ toolCallCount > l then .error (.toolCallsLimitExceeded toolCallCount l) else .ok ()
  | none => .ok ()

/-- `PolicyEnforcer.checkWorkflowDepthLimit` -/
def checkWorkflowDepthLimit (p : Policy) (depth : ℚ) : Except PolicyError Unit :=
  match p.limits.bind ResourceLimits.max_workflow_depth with
  | some l => if l ≠ 0 ∧ depth > l then .error (.workflowDepthLimitExceeded depth l) else .ok ()
  | none => .ok ()

/-! ### Workflow engine (workflow.ts: WorkflowEngine)

The step-input expression evaluator and the step loop of
`WorkflowEngine.execute`. JavaScript scope objects become association
lists; `undefined` and `null` are distinct values. The asynchronous leaf
operations of the three step kinds (`executeTool` / `executeAgent` /
`executeCapability`, whose leaves perform IO) are passed in as explicit
`StepRunners` so the step loop's control flow can be verified. -/

/-- JavaScript values as they occur in workflow scopes and expression
results. Prototype properties (such as `length`) are not modelled. -/
inductive Value where
  | undefined
  | null
  | bool (b : Bool)
  | num (n : ℚ)
  | str (s : String)
  | arr (elements : List Value)
  | obj (fields : List (String × Value))

/-- Models `value?.[part]` for a string key: optional chaining yields
`undefined` on `undefined`/`null`; objects look up their own fields;
arrays accept numeric string keys; other primitives yield `undefined`. -/
def Value.getField : Value → String → Value
  | .obj fields, k =>
    match fields.find? (fun f => f.1 == k) with
    | some f => f.2
    | none => .undefined
  | .arr elements, k =>
    match k.toNat? with
    | some i => (elements.get? i).getD .undefined
    | none => .undefined
  | _, _ => .undefined

/-- A workflow scope: step name (plus the reserved key `input`) to value. -/
abbrev Scope := List (String × Value)

/-- JS property assignment `scope[stepName] = v`: replace in place when the
key exists, otherwise append. -/
def Scope.set (s : Scope) (k : String) (v : Value) : Scope :=
  if s.any (fun p => p.1 == k) then
    s.map (fun p => if p.1 == k then (k, v) else p)
  else
    s ++ [(k, v)]

/-- AST expressions as the evaluator distinguishes them: `Literal`,
`Reference`, `List`, `Map`, `BlockExpression` (with its string-tagged
block type, identifier and attribute body), and any other kind. -/
inductive Expression where
  | literal (value : Value)
  | reference (path : List String)
  | list (elements : List Expression)
  | map (properties : List (String × Expression))
  | block (btype : String) (identifier : String) (body : List (String × Expression))
  | other

/-- `WorkflowEngine.evaluateExpression`: Literal yields its value;
Reference folds `value = value?.[part]` over the dotted path starting at
the scope object; List and Map evaluate recursively; everything else
(including a BlockExpression) yields `null`. -/
def evaluateExpression (scope : Scope) : Expression → Value
  | .literal v => v
  | .reference path => path.foldl Value.getField (Value.obj scope)
  | .list es => .arr (es.attach.map fun e => evaluateExpression scope e.1)
  | .map ps => .obj (ps.attach.map fun p => (p.1.1, evaluateExpression scope p.1.2))
  | .block _ _ _ => .null
  | .other => .null
termination_by e => sizeOf e
decreasing_by
  · have h := List.sizeOf_lt_of_mem e.2
    simp only [Expression.list.sizeOf_spec]
    omega
  · have h := List.sizeOf_lt_of_mem p.2
    have h2 : sizeOf p.1.2 < sizeOf p.1 := by
      obtain ⟨⟨k, ex⟩, hm⟩ := p
      simp only [Prod.mk.sizeOf_spec]
      omega
    simp only [Expression.map.sizeOf_spec]
    omega

/-- The three awaited step executors of the engine (their IO leaves —
HTTP tool handlers, the model gateway — are abstracted as functions). -/
structure StepRunners where
  runTool : String → List (String × Expression) → Scope → Except String Value
  runAgent : String → List (String × Expression) → Scope → Except String Value
  runCapability : String → List (String × Expression) → Scope → Except String Value

/-- The dispatch inside the step loop: only a BlockExpression with a
recognized type runs; an unknown block type or a non-block expression is
skipped with a warning (`none`). -/
def stepAction (R : StepRunners) (e : Expression) (scope : Scope) :
    Option (Except String Value) :=
  match e with
  | .block "tool" ident body => some (R.runTool ident body scope)
  | .block "agent" ident body => some (R.runAgent ident body scope)
  | .block "capability" ident body => some (R.runCapability ident body scope)
  | _ => none

/-- The step loop of `WorkflowEngine.execute`: steps run in declaration
order; a successful step's result is stored under the step name; a failing
step's error propagates (the source's catch block logs and re-throws). -/
def runSteps (R : StepRunners) : List (String × Expression) → Scope → Except String Scope
  | [], scope => .ok scope
  | (stepName, expr) :: rest, scope =>
    match stepAction R expr scope with
    | some (.ok v) => runSteps R rest (Scope.set scope stepName v)
    | some (.error e) => .error e
    | none => runSteps R rest scope

/-- `WorkflowEngine.execute`: no `steps` block means an immediate return
with no scope (`undefined`); otherwise run the steps on `{input}` and
return the final scope. -/
def execute (R : StepRunners) (steps : Option (List (String × Expression)))
    (input : Value) : Except String (Option Scope) :=
  match steps with
  | none => .ok none
  | some attrs => (runSteps R attrs [("input", input)]).map some

/-! ### Model gateway (gateway/gateway.ts: ModelGateway)

Provider adapters perform HTTP, so a provider call is abstracted as a
function from (providerId, modelName) to an adapter result whose error
carries the thrown message. The registry and the per-provider usage
counters are initialized together in `initializeProviders`, so one
ordered association list serves as both: a provider is registered iff its
id is a key. The rate-limit `acquire` inside `completeWithProvider` only
suspends (see `RateLimiter` below) and never touches the counters, so it
has no effect in this state model. -/

/-- Per-provider usage record `{requests, tokens, errors}`. -/
structure UsageCounters where
  requests : ℕ
  tokens : ℕ
  errors : ℕ
deriving DecidableEq

/-- The Gateway's `usageStats` map in insertion order (doubling as the
provider registry: registered iff the id is a key). -/
abbrev UsageStats := List (String × UsageCounters)

/-- `usageStats.get(id)` -/
def UsageStats.lookup (st : UsageStats) (id : String) : Option UsageCounters :=
  (st.find? (fun p => p.1 == id)).map Prod.snd

/-- Mutating the single map entry of a key in place. -/
def UsageStats.update : UsageStats → String → (UsageCounters → UsageCounters) → UsageStats
  | [], _, _ => []
  | p :: rest, id, f =>
    if p.1 == id then (p.1, f p.2) :: rest else p :: UsageStats.update rest id f

/-- `totalRequests` of `roundRobinStrategy`: sum of request counters over
all registered providers. -/
def totalRequests (st : UsageStats) : ℕ :=
  (st.map (fun p => p.2.requests)).sum

structure ProviderUsage where
  prompt_tokens : ℕ
  completion_tokens : ℕ
  total_tokens : ℕ
deriving DecidableEq

structure ProviderResponse where
  content : String
  model : String
  usage : Option ProviderUsage
  finish_reason : Option String
deriving DecidableEq

/-- `stats.tokens += response.usage.total_tokens` happens only when the
response reports usage. -/
def tokensOfResponse (r : ProviderResponse) : ℕ :=
  match r.usage with
  | some u => u.total_tokens
  | none => 0

/-- An adapter call: `provider.complete` for a given provider id and model
name; the error side is the thrown message. Request params/messages do
not influence the control flow verified here. -/
abbrev ProviderFn := String → String → Except String ProviderResponse

inductive GatewayError where
  | providerNotFound (id : String)
  | adapter (msg : String)
  | allProvidersFailed (lastMessage : Option String)
  | noCandidate
deriving DecidableEq

/-- `error.message` as used in the failover aggregate error. -/
def GatewayError.message : GatewayError → String
  | .providerNotFound id => "Provider not found: " ++ id
  | .adapter msg => msg
  | .allProvidersFailed _ => "All providers failed"
  | .noCandidate => "no candidate"

/-- One `{provider, name, params?}` entry of an advanced model config. -/
structure ModelProviderConfig where
  provider : String
  name : String
deriving DecidableEq

/-- `providerRef.split('.')` over the character data (written out by
structural recursion so that it evaluates; same segments as a JS
`split('.')`, including empty segments). -/
def splitOnDot : List Char → List Char → List String
  | [], acc => [⟨acc.reverse⟩]
  | c :: cs, acc =>
    if c = '.' then ⟨acc.reverse⟩ :: splitOnDot cs [] else splitOnDot cs (c :: acc)

/-- `extractProviderId`: `parts[parts.length - 1]` of the dot-split
reference. -/
def extractProviderId (providerRef : String) : String :=
  (splitOnDot providerRef.data []).getLastD ""

/-- `ModelGateway.completeWithProvider`: not-found check, rate-limit
acquire (suspension only), request counter increment, adapter call, token
accumulation on success, error counter increment and re-raise on failure. -/
def completeWithProvider (pf : ProviderFn) (st : UsageStats)
    (providerId modelName : String) :
    Except GatewayError ProviderResponse × UsageStats :=
  match UsageStats.lookup st providerId with
  | none => (.error (.providerNotFound providerId), st)
  | some _ =>
    let st1 := UsageStats.update st providerId
      (fun c => ⟨c.requests + 1, c.tokens, c.errors⟩)
    match pf providerId modelName with
    | .ok response =>
      let st2 := match response.usage with
        | some u => UsageStats.update st1 providerId
            (fun c => ⟨c.requests, c.tokens + u.total_tokens, c.errors⟩)
        | none => st1
      (.ok response, st2)
    | .error msg =>
      (.error (.adapter msg),
       UsageStats.update st1 providerId (fun c => ⟨c.requests, c.tokens, c.errors + 1⟩))

/-- The loop of `ModelGateway.failoverStrategy` with its running
`lastError`. -/
def failoverGo (pf : ProviderFn) (st : UsageStats) :
    List ModelProviderConfig → Option GatewayError →
    Except GatewayError ProviderResponse × UsageStats
  | [], lastError =>
    (.error (.allProvidersFailed (lastError.map GatewayError.message)), st)
  | c :: rest, _lastError =>
    match completeWithProvider pf st (extractProviderId c.provider) c.name with
    | (.ok r, st') => (.ok r, st')
    | (.error e, st') => failoverGo pf st' rest (some e)

/-- `ModelGateway.failoverStrategy` -/
def failoverStrategy (pf : ProviderFn) (st : UsageStats)
    (providers : List ModelProviderConfig) :
    Except GatewayError ProviderResponse × UsageStats :=
  failoverGo pf st providers none

/-- `ModelGateway.roundRobinStrategy`: one candidate picked by the total
request count modulo the candidate count; its outcome — success or
failure — is the result (no fallback). On an empty candidate list the
source crashes reading `providers[index]`; modelled as an error. -/
def roundRobinStrategy (pf : ProviderFn) (st : UsageStats)
    (providers : List ModelProviderConfig) :
    Except GatewayError ProviderResponse × UsageStats :=
  let index := totalRequests st % providers.length
  match providers[index]? with
  | some c => completeWithProvider pf st (extractProviderId c.provider) c.name
  | none => (.error .noCandidate, st)

/-! ### Credential resolution (gateway/gateway.ts: createProvider)

`createProvider` resolves `config.credentials` to a single `apiKey`.
A `CredentialReference` is an object with `type` and `ref`; a
`CredentialBlock` is an object of entries resolved in order. The source
loop breaks after the FIRST entry that has both `type` and `ref` keys,
whether or not it resolved to a value. -/

structure CredentialResolver where
  getEnv : String → Option String
  getSecret : String → Option String

/-- One entry of a credential block: either shaped like a reference
(`'type' in credRef && 'ref' in credRef`) or not. -/
inductive CredentialEntry where
  | ref (type : String) (name : String)
  | malformed
deriving DecidableEq

/-- `config.credentials`: a single reference or a block of entries. -/
inductive Credentials where
  | reference (type : String) (name : String)
  | block (entries : List (String × CredentialEntry))
deriving DecidableEq

/-- Resolving one reference: `env` via `getEnv`, `secrets` via
`getSecret`, anything else leaves the key unset. -/
def resolveRef (res : CredentialResolver) (type name : String) : Option String :=
  if type == "env" then res.getEnv name
  else if type == "secrets" then res.getSecret name
  else none

/-- The credential-block loop: skip entries without `type`/`ref`; at the
first well-formed entry, resolve it and break — regardless of whether the
resolution produced a value. -/
def resolveCredentialBlock (res : CredentialResolver) :
    List (String × CredentialEntry) → Option String
  | [] => none
  | (_, .ref t n) :: _ => resolveRef res t n
  | (_, .malformed) :: rest => resolveCredentialBlock res rest

/-- The whole credential-resolution preamble of `createProvider`
(`apiKey` stays `undefined` when no credentials are configured). -/
def resolveApiKey (res : CredentialResolver) : Option Credentials → Option String
  | none => none
  | some (.reference t n) => resolveRef res t n
  | some (.block entries) => resolveCredentialBlock res entries

/-- `config.name.includes(sub)` on strings. -/
def strIncludes (s sub : String) : Bool :=
  decide (sub.toList <:+: s.toList)

/-- An `IRProvider` configuration as `createProvider` consumes it
(`config.config` endpoint/timeout do not affect whether initialization
succeeds and are elided). -/
structure IRProvider where
  id : String
  name : String
  type : String
  credentials : Option Credentials
deriving DecidableEq

inductive ProviderInstance where
  | openai (apiKey : String)
  | anthropic (apiKey : String)
deriving DecidableEq

/-- `ModelGateway.createProvider`: resolve the credential (throwing when
no `apiKey` was produced), then build the adapter by sniffing the
provider name/id. -/
def createProvider (res : CredentialResolver) (config : IRProvider) :
    Except String ProviderInstance :=
  match resolveApiKey res config.credentials with
  | none => .error ("No credentials found for provider " ++ config.id)
  | some apiKey =>
    match config.type with
    | "llm" =>
      if strIncludes config.name.toLower "openai" || strIncludes config.id "openai" then
        .ok (.openai apiKey)
      else if strIncludes config.name.toLower "anthropic" || strIncludes config.id "anthropic" then
        .ok (.anthropic apiKey)
      else .error ("Unknown LLM provider: " ++ config.name)
    | _ => .error ("Unsupported provider type: " ++ config.type)

/-- `ModelGateway.initializeProviders`: each provider is created and
registered independently; a failing `createProvider` is caught and logged,
leaving that provider unregistered while the rest continue. -/
def initializeProviders (res : CredentialResolver)
    (providers : List IRProvider) : List (String × ProviderInstance) :=
  providers.foldl
    (fun registry config =>
      match createProvider res config with
      | .ok p => registry ++ [(config.id, p)]
      | .error _ => registry)
    []

/-! ### Rate limiter (gateway/provider.ts: RateLimiter)

A token bucket over rational token counts and millisecond timestamps.
`acquire` is modelled as happening at an explicit call time `now`; the
`setTimeout` suspension resumes at exactly `now + waitTime` (an ideal
timer). In the source, `if (this.limits.requests_per_minute)` is a JS
truthiness test: an absent or zero rate disables refill entirely. -/

structure RateLimits where
  requests_per_minute : Option ℚ
deriving DecidableEq

structure RateLimiter where
  limits : RateLimits
  maxTokens : ℚ
  tokens : ℚ
  lastRefill : ℚ
deriving DecidableEq

/-- The constructor: a full bucket, `lastRefill = Date.now()`. -/
def RateLimiter.init (limits : RateLimits) (maxTokens : ℚ) (now : ℚ) : RateLimiter :=
  ⟨limits, maxTokens, maxTokens, now⟩

/-- The constructor with the default bucket size of 60 (the Gateway always
uses this default). -/
def RateLimiter.initDefault (limits : RateLimits) (now : ℚ) : RateLimiter :=
  RateLimiter.init limits 60 now

/-- `RateLimiter.refill`: add `elapsed / 60000 * requests_per_minute`
tokens, clamped above by `maxTokens`, and reset `lastRefill` — but only
when `requests_per_minute` is truthy; otherwise do nothing at all. -/
def RateLimiter.refill (rl : RateLimiter) (now : ℚ) : RateLimiter :=
  match rl.limits.requests_per_minute with
  | some rpm =>
    if rpm ≠ 0 then
      ⟨rl.limits, rl.maxTokens,
       min rl.maxTokens (rl.tokens + (now - rl.lastRefill) / 60000 * rpm), now⟩
    else rl
  | none => rl

/-- `RateLimiter.getWaitTime`: `60000 / requests_per_minute` when truthy,
else the fixed default of 1000 ms. -/
def RateLimiter.getWaitTime (rl : RateLimiter) : ℚ :=
  match rl.limits.requests_per_minute with
  | some rpm => if rpm ≠ 0 then 60000 / rpm else 1000
  | none => 1000

/-- `RateLimiter.acquire` at call time `now`: refill; when fewer than one
token is available, suspend for `getWaitTime` (returned as `some wait`)
and refill at the resume time; then unconditionally decrement one token. -/
def RateLimiter.acquire (rl : RateLimiter) (now : ℚ) : Option ℚ × RateLimiter :=
  let rl1 := rl.refill now
  if rl1.tokens < 1 then
    let waitTime := rl1.getWaitTime
    let rl2 := rl1.refill (now + waitTime)
    (some waitTime, ⟨rl2.limits, rl2.maxTokens, rl2.tokens - 1, rl2.lastRefill⟩)
  else
    (none, ⟨rl1.limits, rl1.maxTokens, rl1.tokens - 1, rl1.lastRefill⟩)

/-- `n` back-to-back `acquire()` calls, all issued at the same time. -/
def acquireN (rl : RateLimiter) (now : ℚ) : ℕ → RateLimiter
  | 0 => rl
  | n + 1 => (RateLimiter.acquire (acquireN rl now n) now).2

/-! ### Tool sandbox (security/sandbox.ts: ToolSandbox)

Only the pre-flight guards are needed here: `checkNetworkAccess` and
`checkFilesystemAccess`, both of which return immediately when no sandbox
configuration exists. -/

structure SandboxConfig where
  timeout_ms : Option ℚ
  network_allowed : Bool
  network_hosts : Option (List String)
  filesystem_allowed : Bool
  filesystem_mode : Option String
  filesystem_paths : Option (List String)
deriving DecidableEq

structure ToolSecurityConfig where
  sandbox : Option SandboxConfig
deriving DecidableEq

/-- `this.securityConfig?.sandbox` for a `ToolSandbox` built from an
optional security config. -/
def sandboxConfigOf (securityConfig : Option ToolSecurityConfig) :
    Option SandboxConfig :=
  securityConfig.bind ToolSecurityConfig.sandbox

/-- `ToolSandbox.checkNetworkAccess`: no sandbox config means unrestricted;
otherwise network must be enabled and, when a non-empty host allow list
exists, the host must match exactly or be a subdomain. -/
def checkNetworkAccess (securityConfig : Option ToolSecurityConfig)
    (host : String) : Except String Unit :=
  match sandboxConfigOf securityConfig with
  | none => .ok ()
  | some config =>
    if !config.network_allowed then
      .error "Network access is not allowed by sandbox policy"
    else
      match config.network_hosts with
      | some hosts =>
        if hosts.length > 0 then
          if hosts.any (fun allowedHost =>
              host == allowedHost || host.endsWith ("." ++ allowedHost)) then
            .ok ()
          else
            .error ("Network access to " ++ host ++ " is not allowed")
        else .ok ()
      | none => .ok ()

/-- `ToolSandbox.checkFilesystemAccess`: no sandbox config means
unrestricted; otherwise filesystem must be enabled, writes are rejected in
readonly mode, and a non-empty path allow list requires a leading-path
match. -/
def checkFilesystemAccess (securityConfig : Option ToolSecurityConfig)
    (path : String) (write : Bool) : Except String Unit :=
  match sandboxConfigOf securityConfig with
  | none => .ok ()
  | some config =>
    if !config.filesystem_allowed then
      .error "Filesystem access is not allowed by sandbox policy"
    else if write && config.filesystem_mode == some "readonly" then
      .error "Filesystem is in readonly mode, write access denied"
    else
      match config.filesystem_paths with
      | some paths =>
        if paths.length > 0 then
          if paths.any (fun allowedPath => path.startsWith allowedPath) then
            .ok ()
          else
            .error ("Filesystem access to " ++ path ++ " is not allowed")
        else .ok ()
      | none => .ok ()

/-! ### Theorems -/

/-- C1: for every policy and resource id of kind tools/workflows/data, the
access check errors when the id is denied (regardless of any allow list),
errors when it is not denied but an allow list exists and the id is not a
member, and returns without error otherwise (no allow list, or member). -/
theorem checkAccess_deny_wins_allow_optional (p : Policy) (x : String) :
    (deniedTool p x = true → checkToolAccess p x = .error (.toolDenied x)) ∧
    (deniedTool p x = false → ∀ ts, allowTools p = some ts → ts.contains x = false →
      checkToolAccess p x = .error (.toolNotAllowed x)) ∧
    (deniedTool p x = false →
      (allowTools p = none ∨ ∃ ts, allowTools p = some ts ∧ ts.contains x = true) →
      checkToolAccess p x = .ok ()) ∧
    (deniedWorkflow p x = true → checkWorkflowAccess p x = .error (.workflowDenied x)) ∧
    (deniedWorkflow p x = false → ∀ ws, allowWorkflows p = some ws → ws.contains x = false →
      checkWorkflowAccess p x = .error (.workflowNotAllowed x)) ∧
    (deniedWorkflow p x = false →
      (allowWorkflows p = none ∨ ∃ ws, allowWorkflows p = some ws ∧ ws.contains x = true) →
      checkWorkflowAccess p x = .ok ()) ∧
    (deniedData p x = true → checkDataAccess p x = .error (.dataDenied x)) ∧
    (deniedData p x = false → ∀ ds, allowData p = some ds → ds.contains x = false →
      checkDataAccess p x = .error (.dataNotAllowed x)) ∧
    (deniedData p x = false →
      (allowData p = none ∨ ∃ ds, allowData p = some ds ∧ ds.contains x = true) →
      checkDataAccess p x = .ok ()) := by
  refine ⟨?_, ?_, ?_, ?_, ?_, ?_, ?_, ?_, ?_⟩
  · intro h; simp [checkToolAccess, h]
  · intro h ts hts hc
    simp [checkToolAccess, h, hts]
    simpa using hc
  · intro h hall
    rcases hall with hnone | ⟨ts, hts, hc⟩
    · simp [checkToolAccess, h, hnone]
    · simp [checkToolAccess, h, hts]
      simpa using hc
  · intro h; simp [checkWorkflowAccess, h]
  · intro h ws hws hc
    simp [checkWorkflowAccess, h, hws]
    simpa using hc
  · intro h hall
    rcases hall with hnone | ⟨ws, hws, hc⟩
    · simp [checkWorkflowAccess, h, hnone]
    · simp [checkWorkflowAccess, h, hws]
      simpa using hc
  · intro h; simp [checkDataAccess, h]
  · intro h ds hds hc
    simp [checkDataAccess, h, hds]
    simpa using hc
  · intro h hall
    rcases hall with hnone | ⟨ds, hds, hc⟩
    · simp [checkDataAccess, h, hnone]
    · simp [checkDataAccess, h, hds]
      simpa using hc

/-- Witness for C1: a policy denying tool t1 while also allowing it rejects
t1; an id outside a present allow list is rejected; an undenied id with no
allow list passes. -/
theorem checkAccess_deny_wins_allow_optional_witness :
    checkToolAccess ⟨some ⟨some ["t1", "t2"], none, none, none⟩, some ⟨some ["t1"], none, none⟩, none⟩ "t1"
      = .error (.toolDenied "t1") ∧
    checkToolAccess ⟨some ⟨some ["t1", "t2"], none, none, none⟩, some ⟨some ["t1"], none, none⟩, none⟩ "t3"
      = .error (.toolNotAllowed "t3") ∧
    checkDataAccess ⟨some ⟨some ["t1", "t2"], none, none, none⟩, some ⟨some ["t1"], none, none⟩, none⟩ "d9"
      = .ok () := by
  refine ⟨?_, ?_, ?_⟩
  · exact (checkAccess_deny_wins_allow_optional
      ⟨some ⟨some ["t1", "t2"], none, none, none⟩, some ⟨some ["t1"], none, none⟩, none⟩ "t1").1
      (by decide)
  · exact (checkAccess_deny_wins_allow_optional
      ⟨some ⟨some ["t1", "t2"], none, none, none⟩, some ⟨some ["t1"], none, none⟩, none⟩ "t3").2.1
      (by decide) ["t1", "t2"] (by decide) (by decide)
  · exact (checkAccess_deny_wins_allow_optional
      ⟨some ⟨some ["t1", "t2"], none, none, none⟩, some ⟨some ["t1"], none, none⟩, none⟩ "d9").2.2.2.2.2.2.2.2
      (by decide) (Or.inl (by decide))

/-- C9: when a resource limit is configured as 0, the corresponding limit
check never raises for any measured value (a zero limit is falsy in the
source's `if (limit && v > limit)`, so it behaves like an absent limit). -/
theorem zero_limit_never_raises (p : Policy) (v : ℚ) :
    (p.limits.bind ResourceLimits.max_memory_mb = some 0 →
      checkMemoryLimit p v = .ok ()) ∧
    (p.limits.bind ResourceLimits.max_execution_time = some 0 →
      checkExecutionTimeLimit p v = .ok ()) ∧
    (p.limits.bind ResourceLimits.max_tool_calls = some 0 →
      checkToolCallsLimit p v = .ok ()) ∧
    (p.limits.bind ResourceLimits.max_workflow_depth = some 0 →
      checkWorkflowDepthLimit p v = .ok ()) := by
  refine ⟨?_, ?_, ?_, ?_⟩
  · intro h; simp [checkMemoryLimit, h]
  · intro h; simp [checkExecutionTimeLimit, h]
  · intro h; simp [checkToolCallsLimit, h]
  · intro h; simp [checkWorkflowDepthLimit, h]

/-- Witness for C9: a policy with every limit set to 0 passes all four
limit checks at a huge measured value. -/
theorem zero_limit_never_raises_witness :
    checkMemoryLimit ⟨none, none, some ⟨some 0, some 0, some 0, some 0⟩⟩ 999999 = .ok () ∧
    checkExecutionTimeLimit ⟨none, none, some ⟨some 0, some 0, some 0, some 0⟩⟩ 999999 = .ok () ∧
    checkToolCallsLimit ⟨none, none, some ⟨some 0, some 0, some 0, some 0⟩⟩ 999999 = .ok () ∧
    checkWorkflowDepthLimit ⟨none, none, some ⟨some 0, some 0, some 0, some 0⟩⟩ 999999 = .ok () := by
  refine ⟨?_, ?_, ?_, ?_⟩
  · exact (zero_limit_never_raises ⟨none, none, some ⟨some 0, some 0, some 0, some 0⟩⟩ 999999).1 rfl
  · exact (zero_limit_never_raises ⟨none, none, some ⟨some 0, some 0, some 0, some 0⟩⟩ 999999).2.1 rfl
  · exact (zero_limit_never_raises ⟨none, none, some ⟨some 0, some 0, some 0, some 0⟩⟩ 999999).2.2.1 rfl
  · exact (zero_limit_never_raises ⟨none, none, some ⟨some 0, some 0, some 0, some 0⟩⟩ 999999).2.2.2 rfl

/-- Evaluating the element list of a List expression is an ordinary
order-preserving map. -/
theorem evaluateExpression_list_eq (scope : Scope) (es : List Expression) :
    evaluateExpression scope (.list es) = Value.arr (es.map (evaluateExpression scope)) := by
  simp only [evaluateExpression]
  exact congrArg Value.arr (List.attach_map_val es (evaluateExpression scope))

/-- Evaluating the properties of a Map expression maps each value and
keeps each key. -/
theorem evaluateExpression_map_eq (scope : Scope) (ps : List (String × Expression)) :
    evaluateExpression scope (.map ps) =
      Value.obj (ps.map fun p => (p.1, evaluateExpression scope p.2)) := by
  simp only [evaluateExpression]
  exact congrArg Value.obj
    (List.attach_map_val ps (fun q => (q.1, evaluateExpression scope q.2)))

/-- C2: the expression evaluator is a total function into `Value` (never
an error): a Literal evaluates to its value; a Reference folds the
no-throw lookup `value?.[part]` over its dotted path and a missing
intermediate segment yields `undefined`, not an error; a List evaluates
element-wise preserving order; a Map evaluates each value preserving
keys; a block or any other expression kind evaluates to `null`. -/
theorem evaluateExpression_total_spec (scope : Scope) :
    (∀ v, evaluateExpression scope (.literal v) = v) ∧
    (∀ path, evaluateExpression scope (.reference path) =
      path.foldl Value.getField (Value.obj scope)) ∧
    (∀ rest, List.foldl Value.getField Value.undefined rest = Value.undefined) ∧
    evaluateExpression [("a", Value.obj [("b", Value.num 5)])]
      (.reference ["a", "b"]) = Value.num 5 ∧
    evaluateExpression [("a", Value.obj [])]
      (.reference ["a", "b"]) = Value.undefined ∧
    (∀ es, evaluateExpression scope (.list es) =
      Value.arr (es.map (evaluateExpression scope))) ∧
    (∀ ps, evaluateExpression scope (.map ps) =
      Value.obj (ps.map fun p => (p.1, evaluateExpression scope p.2))) ∧
    (∀ ps : List (String × Expression),
      (ps.map fun p => (p.1, evaluateExpression scope p.2)).map Prod.fst =
        ps.map Prod.fst) ∧
    (∀ t i b, evaluateExpression scope (.block t i b) = Value.null) ∧
    evaluateExpression scope .other = Value.null := by
  refine ⟨?_, ?_, ?_, ?_, ?_, evaluateExpression_list_eq scope,
    evaluateExpression_map_eq scope, ?_, ?_, ?_⟩
  · intro v; simp [evaluateExpression]
  · intro path; simp [evaluateExpression]
  · intro rest
    induction rest with
    | nil => rfl
    | cons p ps ih =>
      simp only [List.foldl_cons]
      simpa [Value.getField] using ih
  · simp [evaluateExpression, Value.getField]
  · simp [evaluateExpression, Value.getField]
  · intro ps
    simp [List.map_map, Function.comp]
  · intro t i b; simp [evaluateExpression]
  · simp [evaluateExpression]

/-- Running an appended step list runs the first part and, only when it
succeeds, continues with the second from the produced scope. -/
theorem runSteps_append (R : StepRunners) (xs ys : List (String × Expression))
    (scope : Scope) :
    runSteps R (xs ++ ys) scope =
      match runSteps R xs scope with
      | .ok s1 => runSteps R ys s1
      | .error e => .error e := by
  induction xs generalizing scope with
  | nil => simp [runSteps]
  | cons hd tl ih =>
    obtain ⟨stepName, expr⟩ := hd
    cases h : stepAction R expr scope with
    | none =>
      simp only [List.cons_append, runSteps, h]
      exact ih scope
    | some r =>
      cases r with
      | ok v =>
        simp only [List.cons_append, runSteps, h]
        exact ih _
      | error e =>
        simp only [List.cons_append, runSteps, h]

/-- C3: if any executed step (tool, agent or capability) fails, the
remaining steps are not executed — whatever they are — and the workflow
returns exactly that step's error: no partial scope containing the earlier
successful steps' results is returned. -/
theorem execute_step_failure_aborts (R : StepRunners)
    (pre post : List (String × Expression)) (stepName : String)
    (expr : Expression) (input : Value) (scope1 : Scope) (err : String)
    (hpre : runSteps R pre [("input", input)] = .ok scope1)
    (hfail : stepAction R expr scope1 = some (.error err)) :
    execute R (some (pre ++ (stepName, expr) :: post)) input = .error err := by
  simp only [execute]
  rw [runSteps_append, hpre]
  simp only [runSteps, hfail]
  rfl

/-- Witness for C3: a workflow whose first step is a failing external tool
(the spec's unreachable `echo` example) aborts with the tool error and the
trailing step s2 is never reflected in any returned scope. -/
theorem execute_step_failure_aborts_witness :
    execute
      ⟨fun _ _ _ => .error "Tool handler failed: fetch failed",
       fun _ _ _ => .ok .null,
       fun i _ _ => .ok (.obj [("success", .bool true), ("capability", .str i)])⟩
      (some [("s1", .block "tool" "echo" []), ("s2", .reference ["s1"])])
      (Value.str "hi") = .error "Tool handler failed: fetch failed" :=
  execute_step_failure_aborts
    ⟨fun _ _ _ => .error "Tool handler failed: fetch failed",
     fun _ _ _ => .ok .null,
     fun i _ _ => .ok (.obj [("success", .bool true), ("capability", .str i)])⟩
    [] [("s2", .reference ["s1"])] "s1" (.block "tool" "echo" [])
    (Value.str "hi") [("input", Value.str "hi")]
    "Tool handler failed: fetch failed" rfl rfl

/-- C10: a ToolSandbox whose effective sandbox configuration is absent
grants unrestricted access: the network guard accepts every host, and the
filesystem guard accepts every path in both read and write mode. -/
theorem no_sandbox_config_is_unrestricted (securityConfig : Option ToolSecurityConfig)
    (h : sandboxConfigOf securityConfig = none) :
    (∀ host, checkNetworkAccess securityConfig host = .ok ()) ∧
    (∀ path write, checkFilesystemAccess securityConfig path write = .ok ()) := by
  constructor
  · intro host
    simp [checkNetworkAccess, h]
  · intro path write
    simp [checkFilesystemAccess, h]

/-- Witness for C10: the sandbox of a tool with no security config at all
allows an arbitrary host and an arbitrary write. -/
theorem no_sandbox_config_is_unrestricted_witness :
    checkNetworkAccess none "evil.example.com" = .ok () ∧
    checkFilesystemAccess none "/etc/passwd" true = .ok () :=
  ⟨(no_sandbox_config_is_unrestricted none rfl).1 "evil.example.com",
   (no_sandbox_config_is_unrestricted none rfl).2 "/etc/passwd" true⟩

/-- C8 counterexample: a credential map whose first well-formed entry does
not resolve while the second would. The source loop breaks at the first
entry, so no key is produced, the later entry's value is never used, and
the provider fails to initialize (it is absent from the registry) —
contrary to the claim that the later entry's value would be used. -/
theorem credential_map_counterexample :
    resolveRef ⟨fun v => if v == "GOOD" then some "key-123" else none, fun _ => none⟩
      "env" "GOOD" = some "key-123" ∧
    resolveApiKey ⟨fun v => if v == "GOOD" then some "key-123" else none, fun _ => none⟩
      (some (.block [("first", .ref "env" "MISSING"), ("second", .ref "env" "GOOD")]))
      = none ∧
    createProvider ⟨fun v => if v == "GOOD" then some "key-123" else none, fun _ => none⟩
      ⟨"openai-main", "OpenAI", "llm",
       some (.block [("first", .ref "env" "MISSING"), ("second", .ref "env" "GOOD")])⟩
      = .error "No credentials found for provider openai-main" ∧
    initializeProviders ⟨fun v => if v == "GOOD" then some "key-123" else none, fun _ => none⟩
      [⟨"openai-main", "OpenAI", "llm",
        some (.block [("first", .ref "env" "MISSING"), ("second", .ref "env" "GOOD")])⟩]
      = [] :=
  ⟨rfl, rfl, rfl, rfl⟩

/-- C8 amended: in a credential map, the first entry shaped as a credential
reference (having both `type` and `ref`) wins — it is resolved and the
loop breaks there whether or not a value was produced (entries before it
lacking `type`/`ref` are skipped); when nothing resolves, the provider
fails to initialize with a no-credentials error. -/
theorem credential_map_first_wellformed_entry_wins
    (res : CredentialResolver) (pre rest : List (String × CredentialEntry))
    (k t n : String)
    (hpre : ∀ e ∈ pre, e.2 = CredentialEntry.malformed) :
    resolveCredentialBlock res (pre ++ (k, .ref t n) :: rest) = resolveRef res t n ∧
    (∀ config : IRProvider, resolveApiKey res config.credentials = none →
      createProvider res config =
        .error ("No credentials found for provider " ++ config.id)) := by
  constructor
  · induction pre with
    | nil => rfl
    | cons e pre ih =>
      have he : e.2 = CredentialEntry.malformed := hpre e (by simp)
      obtain ⟨key, entry⟩ := e
      simp only at he
      subst he
      simp only [List.cons_append, resolveCredentialBlock]
      exact ih (fun e he' => hpre e (List.mem_cons_of_mem _ he'))
  · intro config h
    simp [createProvider, h]

/-- Witness for C8's amended theorem: a malformed entry is skipped, the
following well-formed but unresolvable entry wins and the provider errors. -/
theorem credential_map_first_wellformed_entry_wins_witness :
    resolveCredentialBlock ⟨fun _ => none, fun _ => none⟩
      [("zero", .malformed), ("first", .ref "env" "MISSING"), ("second", .ref "env" "GOOD")]
      = resolveRef ⟨fun _ => none, fun _ => none⟩ "env" "MISSING" ∧
    createProvider ⟨fun _ => none, fun _ => none⟩
      ⟨"p1", "OpenAI", "llm", some (.block [("first", .ref "env" "MISSING")])⟩
      = .error "No credentials found for provider p1" := by
  constructor
  · exact (credential_map_first_wellformed_entry_wins
      ⟨fun _ => none, fun _ => none⟩ [("zero", .malformed)]
      [("second", .ref "env" "GOOD")] "first" "env" "MISSING"
      (by intro e he; simp at he; rw [he])).1
  · exact (credential_map_first_wellformed_entry_wins
      ⟨fun _ => none, fun _ => none⟩ [] [] "first" "env" "MISSING"
      (by intro e he; simp at he)).2
      ⟨"p1", "OpenAI", "llm", some (.block [("first", .ref "env" "MISSING")])⟩ rfl

/-- Updating a key rewrites exactly that key's counters. -/
theorem lookup_update_self (st : UsageStats) (id : String)
    (f : UsageCounters → UsageCounters) :
    (UsageStats.update st id f).lookup id = (st.lookup id).map f := by
  induction st with
  | nil => rfl
  | cons p rest ih =>
    by_cases hb : (p.1 == id) = true
    · simp [UsageStats.update, UsageStats.lookup, List.find?, hb]
    · simp only [Bool.not_eq_true] at hb
      simp only [UsageStats.update, hb, Bool.false_eq_true, if_false,
        UsageStats.lookup, List.find?, hb]
      simpa [UsageStats.lookup] using ih

/-- Updating one key leaves every other key's counters unchanged. -/
theorem lookup_update_ne (st : UsageStats) (id x : String)
    (f : UsageCounters → UsageCounters) (hx : x ≠ id) :
    (UsageStats.update st id f).lookup x = st.lookup x := by
  induction st with
  | nil => rfl
  | cons p rest ih =>
    by_cases hb : (p.1 == id) = true
    · have hp1 : p.1 = id := by simpa using hb
      have hpx : (p.1 == x) = false := by
        simp [hp1]
        exact fun h => hx h.symm
      simp [UsageStats.update, UsageStats.lookup, List.find?, hb, hpx]
    · simp only [Bool.not_eq_true] at hb
      by_cases hpx : (p.1 == x) = true
      · simp [UsageStats.update, UsageStats.lookup, List.find?, hb, hpx]
      · simp only [Bool.not_eq_true] at hpx
        simp only [UsageStats.update, hb, Bool.false_eq_true, if_false,
          UsageStats.lookup, List.find?, hpx]
        simpa [UsageStats.lookup] using ih

/-- Updating counters never changes which keys are present. -/
theorem lookup_update_isSome (st : UsageStats) (id x : String)
    (f : UsageCounters → UsageCounters) :
    ((UsageStats.update st id f).lookup x).isSome = (st.lookup x).isSome := by
  by_cases hx : x = id
  · subst hx
    rw [lookup_update_self]
    cases st.lookup x <;> rfl
  · rw [lookup_update_ne st id x f hx]

/-- An update that preserves the request field preserves the total. -/
theorem totalRequests_update_of_requests_eq (st : UsageStats) (id : String)
    (f : UsageCounters → UsageCounters) (hf : ∀ c, (f c).requests = c.requests) :
    totalRequests (UsageStats.update st id f) = totalRequests st := by
  induction st with
  | nil => rfl
  | cons p rest ih =>
    by_cases hb : (p.1 == id) = true
    · simp [UsageStats.update, totalRequests, hb, hf]
    · simp only [Bool.not_eq_true] at hb
      simp only [UsageStats.update, hb, Bool.false_eq_true, if_false,
        totalRequests, List.map, List.sum_cons]
      simp only [totalRequests] at ih
      omega

/-- An update that increments the request field of a present key
increments the total by one. -/
theorem totalRequests_update_of_requests_succ (st : UsageStats) (id : String)
    (f : UsageCounters → UsageCounters) (hf : ∀ c, (f c).requests = c.requests + 1)
    (hid : (st.lookup id).isSome = true) :
    totalRequests (UsageStats.update st id f) = totalRequests st + 1 := by
  induction st with
  | nil => simp [UsageStats.lookup] at hid
  | cons p rest ih =>
    by_cases hb : (p.1 == id) = true
    · simp [UsageStats.update, totalRequests, hb, hf]
      omega
    · simp only [Bool.not_eq_true] at hb
      have hid' : (UsageStats.lookup rest id).isSome = true := by
        simpa [UsageStats.lookup, List.find?, hb] using hid
      simp only [UsageStats.update, hb, Bool.false_eq_true, if_false,
        totalRequests, List.map, List.sum_cons]
      simp only [totalRequests] at ih
      rw [ih hid']
      omega

/-- C4: failover tries candidates in order — the first success is returned
as is; a failing candidate's error is caught and the remaining candidates
are tried from the updated stats; when every candidate fails, the result
is an aggregate error referencing the last candidate's failure. In the
two-candidate case [A(fails), B(succeeds)], B's result is returned, A's
request and error counters increment exactly once, and B's request
counter increments exactly once (B's error counter is untouched). -/
theorem failoverStrategy_spec (pf : ProviderFn) :
    (∀ st c rest lastError r st1,
      completeWithProvider pf st (extractProviderId c.provider) c.name = (.ok r, st1) →
      failoverGo pf st (c :: rest) lastError = (.ok r, st1)) ∧
    (∀ st c rest lastError e st1,
      completeWithProvider pf st (extractProviderId c.provider) c.name = (.error e, st1) →
      failoverGo pf st (c :: rest) lastError = failoverGo pf st1 rest (some e)) ∧
    (∀ st (cs : List ModelProviderConfig) (msgF : ModelProviderConfig → String),
      cs ≠ [] →
      (∀ c ∈ cs, (UsageStats.lookup st (extractProviderId c.provider)).isSome = true) →
      (∀ c ∈ cs, pf (extractProviderId c.provider) c.name = .error (msgF c)) →
      ∃ st1 lastC, cs.getLast? = some lastC ∧
        failoverStrategy pf st cs =
          (.error (.allProvidersFailed (some (msgF lastC))), st1)) ∧
    (∀ st (A B : ModelProviderConfig) (msgA : String) (rB : ProviderResponse)
        (cA cB : UsageCounters),
      extractProviderId A.provider ≠ extractProviderId B.provider →
      UsageStats.lookup st (extractProviderId A.provider) = some cA →
      UsageStats.lookup st (extractProviderId B.provider) = some cB →
      pf (extractProviderId A.provider) A.name = .error msgA →
      pf (extractProviderId B.provider) B.name = .ok rB →
      (failoverStrategy pf st [A, B]).1 = .ok rB ∧
      UsageStats.lookup (failoverStrategy pf st [A, B]).2 (extractProviderId A.provider)
        = some ⟨cA.requests + 1, cA.tokens, cA.errors + 1⟩ ∧
      UsageStats.lookup (failoverStrategy pf st [A, B]).2 (extractProviderId B.provider)
        = some ⟨cB.requests + 1, cB.tokens + tokensOfResponse rB, cB.errors⟩) := by
  have hgo_ok : ∀ st c rest lastError r st1,
      completeWithProvider pf st (extractProviderId c.provider) c.name = (.ok r, st1) →
      failoverGo pf st (c :: rest) lastError = (.ok r, st1) := by
    intro st c rest lastError r st1 h
    simp [failoverGo, h]
  have hgo_err : ∀ st c rest lastError e st1,
      completeWithProvider pf st (extractProviderId c.provider) c.name = (.error e, st1) →
      failoverGo pf st (c :: rest) lastError = failoverGo pf st1 rest (some e) := by
    intro st c rest lastError e st1 h
    simp [failoverGo, h]
  have hallfail : ∀ (cs : List ModelProviderConfig) st
      (lastError : Option GatewayError) (msgF : ModelProviderConfig → String),
      cs ≠ [] →
      (∀ c ∈ cs, (UsageStats.lookup st (extractProviderId c.provider)).isSome = true) →
      (∀ c ∈ cs, pf (extractProviderId c.provider) c.name = .error (msgF c)) →
      ∃ st1 lastC, cs.getLast? = some lastC ∧
        failoverGo pf st cs lastError =
          (.error (.allProvidersFailed (some (msgF lastC))), st1) := by
    intro cs
    induction cs with
    | nil => intro st lastError msgF hne; exact absurd rfl hne
    | cons c rest ih =>
      intro st lastError msgF _ hreg hfail
      obtain ⟨c0, hc0⟩ := Option.isSome_iff_exists.mp (hreg c (by simp))
      have hpf := hfail c (by simp)
      have hstep : completeWithProvider pf st (extractProviderId c.provider) c.name =
          (.error (.adapter (msgF c)),
           UsageStats.update
             (UsageStats.update st (extractProviderId c.provider)
               (fun x => ⟨x.requests + 1, x.tokens, x.errors⟩))
             (extractProviderId c.provider)
             (fun x => ⟨x.requests, x.tokens, x.errors + 1⟩)) := by
        simp [completeWithProvider, hc0, hpf]
      cases rest with
      | nil =>
        refine ⟨UsageStats.update
            (UsageStats.update st (extractProviderId c.provider)
              (fun x => ⟨x.requests + 1, x.tokens, x.errors⟩))
            (extractProviderId c.provider)
            (fun x => ⟨x.requests, x.tokens, x.errors + 1⟩), c, rfl, ?_⟩
        rw [hgo_err st c [] lastError _ _ hstep]
        simp [failoverGo, GatewayError.message]
      | cons r rs =>
        have hreg' : ∀ x ∈ r :: rs,
            (UsageStats.lookup
              (UsageStats.update
                (UsageStats.update st (extractProviderId c.provider)
                  (fun x => ⟨x.requests + 1, x.tokens, x.errors⟩))
                (extractProviderId c.provider)
                (fun x => ⟨x.requests, x.tokens, x.errors + 1⟩))
              (extractProviderId x.provider)).isSome = true := by
          intro x hx
          rw [lookup_update_isSome, lookup_update_isSome]
          exact hreg x (by simp [hx])
        have hfail' : ∀ x ∈ r :: rs,
            pf (extractProviderId x.provider) x.name = .error (msgF x) := by
          intro x hx
          exact hfail x (by simp [hx])
        obtain ⟨st1, lastC, hlast, hrun⟩ :=
          ih _ (some (.adapter (msgF c))) msgF (by simp) hreg' hfail'
        refine ⟨st1, lastC, ?_, ?_⟩
        · rw [List.getLast?_cons_cons]
          exact hlast
        · rw [hgo_err st c (r :: rs) lastError _ _ hstep]
          exact hrun
  refine ⟨hgo_ok, hgo_err, ?_, ?_⟩
  · intro st cs msgF hne hreg hfail
    exact hallfail cs st none msgF hne hreg hfail
  · intro st A B msgA rB cA cB hAB hlkA hlkB hpfA hpfB
    have hstepA : completeWithProvider pf st (extractProviderId A.provider) A.name =
        (.error (.adapter msgA),
         UsageStats.update
           (UsageStats.update st (extractProviderId A.provider)
             (fun x => ⟨x.requests + 1, x.tokens, x.errors⟩))
           (extractProviderId A.provider)
           (fun x => ⟨x.requests, x.tokens, x.errors + 1⟩)) := by
      simp [completeWithProvider, hlkA, hpfA]
    have hlkB2 : UsageStats.lookup
        (UsageStats.update
          (UsageStats.update st (extractProviderId A.provider)
            (fun x => ⟨x.requests + 1, x.tokens, x.errors⟩))
          (extractProviderId A.provider)
          (fun x => ⟨x.requests, x.tokens, x.errors + 1⟩))
        (extractProviderId B.provider) = some cB := by
      rw [lookup_update_ne _ _ _ _ (Ne.symm hAB), lookup_update_ne _ _ _ _ (Ne.symm hAB)]
      exact hlkB
    have hrunB := failoverGo pf (UsageStats.update
          (UsageStats.update st (extractProviderId A.provider)
            (fun x => ⟨x.requests + 1, x.tokens, x.errors⟩))
          (extractProviderId A.provider)
          (fun x => ⟨x.requests, x.tokens, x.errors + 1⟩)) [B] (some (.adapter msgA))
    have hmain : failoverStrategy pf st [A, B] =
        (.ok rB,
         (match rB.usage with
          | some u =>
            UsageStats.update
              (UsageStats.update
                (UsageStats.update
                  (UsageStats.update st (extractProviderId A.provider)
                    (fun x => ⟨x.requests + 1, x.tokens, x.errors⟩))
                  (extractProviderId A.provider)
                  (fun x => ⟨x.requests, x.tokens, x.errors + 1⟩))
                (extractProviderId B.provider)
                (fun x => ⟨x.requests + 1, x.tokens, x.errors⟩))
              (extractProviderId B.provider)
              (fun x => ⟨x.requests, x.tokens + u.total_tokens, x.errors⟩)
          | none =>
            UsageStats.update
              (UsageStats.update
                (UsageStats.update st (extractProviderId A.provider)
                  (fun x => ⟨x.requests + 1, x.tokens, x.errors⟩))
                (extractProviderId A.provider)
                (fun x => ⟨x.requests, x.tokens, x.errors + 1⟩))
              (extractProviderId B.provider)
              (fun x => ⟨x.requests + 1, x.tokens, x.errors⟩))) := by
      unfold failoverStrategy
      rw [hgo_err st A [B] none _ _ hstepA]
      cases hu : rB.usage with
      | some u =>
        apply hgo_ok
        simp [completeWithProvider, hlkB2, hpfB, hu]
      | none =>
        apply hgo_ok
        simp [completeWithProvider, hlkB2, hpfB, hu]
    refine ⟨?_, ?_, ?_⟩
    · rw [hmain]
    · rw [hmain]
      cases hu : rB.usage with
      | some u =>
        simp only
        rw [lookup_update_ne _ _ _ _ hAB, lookup_update_ne _ _ _ _ hAB,
            lookup_update_self, lookup_update_self, hlkA]
        rfl
      | none =>
        simp only
        rw [lookup_update_ne _ _ _ _ hAB,
            lookup_update_self, lookup_update_self, hlkA]
        rfl
    · rw [hmain]
      cases hu : rB.usage with
      | some u =>
        simp only
        rw [lookup_update_self, lookup_update_self, hlkB2]
        simp [tokensOfResponse, hu]
      | none =>
        simp only
        rw [lookup_update_self, hlkB2]
        simp [tokensOfResponse, hu]

/-- Witness for C4: over [A(fails), B(succeeds)] the failover run returns
B's response; A's counters go from (0 requests, 0 errors) to (1, 1) and
B's from (5 requests, 7 tokens, 2 errors) to (6, 10, 2). -/
theorem failoverStrategy_spec_witness :
    (failoverStrategy
      (fun id _ => if id == "a" then .error "boom"
                   else .ok ⟨"hi", "m2", some ⟨1, 2, 3⟩, none⟩)
      [("a", ⟨0, 0, 0⟩), ("b", ⟨5, 7, 2⟩)]
      [⟨"x.a", "m1"⟩, ⟨"b", "m2"⟩]).1 = .ok ⟨"hi", "m2", some ⟨1, 2, 3⟩, none⟩ ∧
    UsageStats.lookup (failoverStrategy
      (fun id _ => if id == "a" then .error "boom"
                   else .ok ⟨"hi", "m2", some ⟨1, 2, 3⟩, none⟩)
      [("a", ⟨0, 0, 0⟩), ("b", ⟨5, 7, 2⟩)]
      [⟨"x.a", "m1"⟩, ⟨"b", "m2"⟩]).2 "a" = some ⟨1, 0, 1⟩ ∧
    UsageStats.lookup (failoverStrategy
      (fun id _ => if id == "a" then .error "boom"
                   else .ok ⟨"hi", "m2", some ⟨1, 2, 3⟩, none⟩)
      [("a", ⟨0, 0, 0⟩), ("b", ⟨5, 7, 2⟩)]
      [⟨"x.a", "m1"⟩, ⟨"b", "m2"⟩]).2 "b" = some ⟨6, 10, 2⟩ :=
  (failoverStrategy_spec
    (fun id _ => if id == "a" then .error "boom"
                 else .ok ⟨"hi", "m2", some ⟨1, 2, 3⟩, none⟩)).2.2.2
    [("a", ⟨0, 0, 0⟩), ("b", ⟨5, 7, 2⟩)]
    ⟨"x.a", "m1"⟩ ⟨"b", "m2"⟩ "boom" ⟨"hi", "m2", some ⟨1, 2, 3⟩, none⟩
    ⟨0, 0, 0⟩ ⟨5, 7, 2⟩ (by decide) rfl rfl rfl rfl

/-- C5: round_robin routes to the single candidate at index equal to the
sum of all providers' request counters modulo the candidate count, and
its outcome — success or failure — is the final result (no fallback, and
the other candidate's counters are untouched on failure). With 2
candidates and 3 prior total requests the request routes to index
3 mod 2 (the second candidate); its increment brings the total to 4, so
the index for the request after it is 4 mod 2 = 0. -/
theorem roundRobinStrategy_spec (pf : ProviderFn) :
    (∀ st (cs : List ModelProviderConfig) (c : ModelProviderConfig),
      cs[totalRequests st % cs.length]? = some c →
      roundRobinStrategy pf st cs =
        completeWithProvider pf st (extractProviderId c.provider) c.name) ∧
    (∀ st (A B : ModelProviderConfig) (msg : String) (cB : UsageCounters),
      totalRequests st = 3 →
      UsageStats.lookup st (extractProviderId B.provider) = some cB →
      pf (extractProviderId B.provider) B.name = .error msg →
      (roundRobinStrategy pf st [A, B]).1 = .error (.adapter msg) ∧
      ∀ x, x ≠ extractProviderId B.provider →
        UsageStats.lookup (roundRobinStrategy pf st [A, B]).2 x =
          UsageStats.lookup st x) ∧
    (∀ st (A B : ModelProviderConfig) (r : ProviderResponse) (cB : UsageCounters),
      totalRequests st = 3 →
      UsageStats.lookup st (extractProviderId B.provider) = some cB →
      pf (extractProviderId B.provider) B.name = .ok r →
      (roundRobinStrategy pf st [A, B]).1 = .ok r ∧
      totalRequests (roundRobinStrategy pf st [A, B]).2 = 4 ∧
      totalRequests (roundRobinStrategy pf st [A, B]).2 % 2 = 0) := by
  have hroute : ∀ st (cs : List ModelProviderConfig) (c : ModelProviderConfig),
      cs[totalRequests st % cs.length]? = some c →
      roundRobinStrategy pf st cs =
        completeWithProvider pf st (extractProviderId c.provider) c.name := by
    intro st cs c h
    simp [roundRobinStrategy, h]
  refine ⟨hroute, ?_, ?_⟩
  · intro st A B msg cB h3 hlkB hpf
    have hsel : [A, B][totalRequests st % [A, B].length]? = some B := by
      rw [h3]; simp
    rw [hroute st [A, B] B hsel]
    have hstep : completeWithProvider pf st (extractProviderId B.provider) B.name =
        (.error (.adapter msg),
         UsageStats.update
           (UsageStats.update st (extractProviderId B.provider)
             (fun x => ⟨x.requests + 1, x.tokens, x.errors⟩))
           (extractProviderId B.provider)
           (fun x => ⟨x.requests, x.tokens, x.errors + 1⟩)) := by
      simp [completeWithProvider, hlkB, hpf]
    rw [hstep]
    refine ⟨rfl, ?_⟩
    intro x hx
    rw [lookup_update_ne _ _ _ _ hx, lookup_update_ne _ _ _ _ hx]
  · intro st A B r cB h3 hlkB hpf
    have hsel : [A, B][totalRequests st % [A, B].length]? = some B := by
      rw [h3]; simp
    rw [hroute st [A, B] B hsel]
    have hsome : (UsageStats.lookup st (extractProviderId B.provider)).isSome = true := by
      rw [hlkB]; rfl
    cases hu : r.usage with
    | some u =>
      have hstep : completeWithProvider pf st (extractProviderId B.provider) B.name =
          (.ok r,
           UsageStats.update
             (UsageStats.update st (extractProviderId B.provider)
               (fun x => ⟨x.requests + 1, x.tokens, x.errors⟩))
             (extractProviderId B.provider)
             (fun x => ⟨x.requests, x.tokens + u.total_tokens, x.errors⟩)) := by
        simp [completeWithProvider, hlkB, hpf, hu]
      rw [hstep]
      have htot : totalRequests
          (UsageStats.update
            (UsageStats.update st (extractProviderId B.provider)
              (fun x => ⟨x.requests + 1, x.tokens, x.errors⟩))
            (extractProviderId B.provider)
            (fun x => ⟨x.requests, x.tokens + u.total_tokens, x.errors⟩)) = 4 := by
        rw [totalRequests_update_of_requests_eq _ (extractProviderId B.provider)
              (fun x => ⟨x.requests, x.tokens + u.total_tokens, x.errors⟩) (fun c => rfl),
            totalRequests_update_of_requests_succ _ (extractProviderId B.provider)
              (fun x => ⟨x.requests + 1, x.tokens, x.errors⟩) (fun c => rfl) hsome, h3]
      exact ⟨rfl, htot, by rw [htot]⟩
    | none =>
      have hstep : completeWithProvider pf st (extractProviderId B.provider) B.name =
          (.ok r,
           UsageStats.update st (extractProviderId B.provider)
             (fun x => ⟨x.requests + 1, x.tokens, x.errors⟩)) := by
        simp [completeWithProvider, hlkB, hpf, hu]
      rw [hstep]
      have htot : totalRequests
          (UsageStats.update st (extractProviderId B.provider)
            (fun x => ⟨x.requests + 1, x.tokens, x.errors⟩)) = 4 := by
        rw [totalRequests_update_of_requests_succ _ (extractProviderId B.provider)
              (fun x => ⟨x.requests + 1, x.tokens, x.errors⟩) (fun c => rfl) hsome, h3]
      exact ⟨rfl, htot, by rw [htot]⟩

/-- Witness for C5: two candidates, 3 prior requests in total (1 on a,
2 on b): the 4th request routes to index 1 (candidate b), the total then
reaches 4 and the following index is 0; on failure of the routed
candidate, candidate a's counters are untouched. -/
theorem roundRobinStrategy_spec_witness :
    ((roundRobinStrategy
        (fun id _ => if id == "b" then .ok ⟨"hi", "m2", none, none⟩ else .error "x")
        [("a", ⟨1, 0, 0⟩), ("b", ⟨2, 0, 0⟩)]
        [⟨"a", "m1"⟩, ⟨"b", "m2"⟩]).1 = .ok ⟨"hi", "m2", none, none⟩ ∧
      totalRequests (roundRobinStrategy
        (fun id _ => if id == "b" then .ok ⟨"hi", "m2", none, none⟩ else .error "x")
        [("a", ⟨1, 0, 0⟩), ("b", ⟨2, 0, 0⟩)]
        [⟨"a", "m1"⟩, ⟨"b", "m2"⟩]).2 = 4 ∧
      totalRequests (roundRobinStrategy
        (fun id _ => if id == "b" then .ok ⟨"hi", "m2", none, none⟩ else .error "x")
        [("a", ⟨1, 0, 0⟩), ("b", ⟨2, 0, 0⟩)]
        [⟨"a", "m1"⟩, ⟨"b", "m2"⟩]).2 % 2 = 0) ∧
    ((roundRobinStrategy
        (fun id _ => if id == "b" then .error "boom" else .ok ⟨"hi", "m1", none, none⟩)
        [("a", ⟨1, 0, 0⟩), ("b", ⟨2, 0, 0⟩)]
        [⟨"a", "m1"⟩, ⟨"b", "m2"⟩]).1 = .error (.adapter "boom") ∧
      UsageStats.lookup (roundRobinStrategy
        (fun id _ => if id == "b" then .error "boom" else .ok ⟨"hi", "m1", none, none⟩)
        [("a", ⟨1, 0, 0⟩), ("b", ⟨2, 0, 0⟩)]
        [⟨"a", "m1"⟩, ⟨"b", "m2"⟩]).2 "a" = some ⟨1, 0, 0⟩) := by
  constructor
  · exact (roundRobinStrategy_spec
      (fun id _ => if id == "b" then .ok ⟨"hi", "m2", none, none⟩ else .error "x")).2.2
      [("a", ⟨1, 0, 0⟩), ("b", ⟨2, 0, 0⟩)] ⟨"a", "m1"⟩ ⟨"b", "m2"⟩
      ⟨"hi", "m2", none, none⟩ ⟨2, 0, 0⟩ rfl rfl rfl
  · have h := (roundRobinStrategy_spec
      (fun id _ => if id == "b" then .error "boom" else .ok ⟨"hi", "m1", none, none⟩)).2.1
      [("a", ⟨1, 0, 0⟩), ("b", ⟨2, 0, 0⟩)] ⟨"a", "m1"⟩ ⟨"b", "m2"⟩
      "boom" ⟨2, 0, 0⟩ rfl rfl rfl
    exact ⟨h.1, (h.2 "a" (by decide)).trans rfl⟩

/-- With no truthy requests_per_minute, refill is a no-op. -/
theorem refill_rpm_none (rl : RateLimiter) (now : ℚ)
    (h : rl.limits.requests_per_minute = none) :
    rl.refill now = rl := by
  simp [RateLimiter.refill, h]

/-- With no truthy requests_per_minute, acquire only decrements. -/
theorem acquire_rpm_none (rl : RateLimiter) (now : ℚ)
    (h : rl.limits.requests_per_minute = none) :
    (rl.acquire now).2 = ⟨rl.limits, rl.maxTokens, rl.tokens - 1, rl.lastRefill⟩ := by
  simp only [RateLimiter.acquire, refill_rpm_none rl now h,
    refill_rpm_none rl _ h]
  split_ifs <;> rfl

/-- With no truthy requests_per_minute, each of n acquires decrements. -/
theorem acquireN_rpm_none (rl : RateLimiter) (now : ℚ)
    (h : rl.limits.requests_per_minute = none) (n : ℕ) :
    acquireN rl now n = ⟨rl.limits, rl.maxTokens, rl.tokens - n, rl.lastRefill⟩ := by
  induction n with
  | zero => simp [acquireN]
  | succ n ih =>
    rw [acquireN, ih,
      acquire_rpm_none ⟨rl.limits, rl.maxTokens, rl.tokens - n, rl.lastRefill⟩ now h]
    have hc : rl.tokens - (n : ℚ) - 1 = rl.tokens - ((n + 1 : ℕ) : ℚ) := by
      push_cast
      ring
    rw [hc]

/-- C6 counterexample: with no requests_per_minute configured (the default
bucket of 60 tokens), 61 back-to-back acquires drive the token count to
-1, strictly below the claimed lower bound of 0. -/
theorem rateLimiter_negative_tokens_counterexample :
    (acquireN (RateLimiter.initDefault ⟨none⟩ 0) 0 61).tokens = -1 ∧
    (acquireN (RateLimiter.initDefault ⟨none⟩ 0) 0 61).tokens < 0 := by
  rw [acquireN_rpm_none (RateLimiter.initDefault ⟨none⟩ 0) 0 rfl 61]
  norm_num [RateLimiter.initDefault, RateLimiter.init]

/-- Refill never changes the capacity. -/
theorem refill_maxTokens (rl : RateLimiter) (now : ℚ) :
    (rl.refill now).maxTokens = rl.maxTokens := by
  cases h : rl.limits.requests_per_minute with
  | none => rw [refill_rpm_none rl now h]
  | some rpm =>
    simp only [RateLimiter.refill, h]
    split_ifs <;> rfl

/-- Refill never changes the limits. -/
theorem refill_limits (rl : RateLimiter) (now : ℚ) :
    (rl.refill now).limits = rl.limits := by
  cases h : rl.limits.requests_per_minute with
  | none => rw [refill_rpm_none rl now h]
  | some rpm =>
    simp only [RateLimiter.refill, h]
    split_ifs <;> rfl

/-- Refill keeps the count below capacity. -/
theorem refill_tokens_le_max (rl : RateLimiter) (now : ℚ)
    (hub : rl.tokens ≤ rl.maxTokens) :
    (rl.refill now).tokens ≤ rl.maxTokens := by
  cases h : rl.limits.requests_per_minute with
  | none => rw [refill_rpm_none rl now h]; exact hub
  | some rpm =>
    simp only [RateLimiter.refill, h]
    split_ifs
    · exact min_le_left _ _
    · exact hub

/-- C6 amended: an acquire never pushes the token count above the
capacity (which it also never changes); and the count stays nonnegative
provided a positive requests_per_minute is configured, the capacity is at
least one token, and time does not run backwards. Without a configured
rate the unconditional decrement can drive the count negative (see the
counterexample). -/
theorem rateLimiter_tokens_clamped (rl : RateLimiter) (now : ℚ)
    (hub : rl.tokens ≤ rl.maxTokens) :
    (rl.acquire now).2.tokens ≤ rl.maxTokens ∧
    (rl.acquire now).2.maxTokens = rl.maxTokens ∧
    (∀ rpm, rl.limits.requests_per_minute = some rpm → 0 < rpm →
      1 ≤ rl.maxTokens → 0 ≤ rl.tokens → rl.lastRefill ≤ now →
      0 ≤ (rl.acquire now).2.tokens) := by
  refine ⟨?_, ?_, ?_⟩
  · simp only [RateLimiter.acquire]
    split_ifs with hlt
    · have h1 := refill_tokens_le_max rl now hub
      have h1m := refill_maxTokens rl now
      have h2 := refill_tokens_le_max (rl.refill now)
        (now + (rl.refill now).getWaitTime) (by rw [h1m]; exact h1)
      simp only [h1m] at h2
      show ((rl.refill now).refill (now + (rl.refill now).getWaitTime)).tokens - 1
        ≤ rl.maxTokens
      linarith
    · have h1 := refill_tokens_le_max rl now hub
      show (rl.refill now).tokens - 1 ≤ rl.maxTokens
      linarith
  · simp only [RateLimiter.acquire]
    split_ifs with hlt
    · simp [refill_maxTokens, refill_maxTokens rl now]
    · simp [refill_maxTokens rl now]
  · intro rpm h hrpm hmax htl hmono
    have hne : rpm ≠ 0 := ne_of_gt hrpm
    have hfill : rl.refill now = ⟨rl.limits, rl.maxTokens,
        min rl.maxTokens (rl.tokens + (now - rl.lastRefill) / 60000 * rpm), now⟩ := by
      simp only [RateLimiter.refill, h]
      rw [if_pos hne]
    have htok1 : 0 ≤ (rl.refill now).tokens := by
      rw [hfill]
      refine le_min (by linarith) ?_
      have h0 : (0 : ℚ) ≤ now - rl.lastRefill := by linarith
      have : 0 ≤ (now - rl.lastRefill) / 60000 * rpm :=
        mul_nonneg (div_nonneg h0 (by norm_num)) (le_of_lt hrpm)
      linarith
    simp only [RateLimiter.acquire]
    split_ifs with hlt
    · have hwait : (rl.refill now).getWaitTime = 60000 / rpm := by
        rw [hfill]
        simp only [RateLimiter.getWaitTime, h]
        rw [if_pos hne]
      have hfill2 : (rl.refill now).refill (now + (rl.refill now).getWaitTime) =
          ⟨rl.limits, rl.maxTokens,
           min rl.maxTokens ((rl.refill now).tokens + 1), now + 60000 / rpm⟩ := by
        rw [hwait]
        rw [hfill]
        simp only [RateLimiter.refill, h]
        rw [if_pos hne]
        have harith : min rl.maxTokens (rl.tokens + (now - rl.lastRefill) / 60000 * rpm)
            + (now + 60000 / rpm - now) / 60000 * rpm =
            min rl.maxTokens (rl.tokens + (now - rl.lastRefill) / 60000 * rpm) + 1 := by
          have : (now + 60000 / rpm - now) / 60000 * rpm = 1 := by
            field_simp
            ring
          rw [this]
        rw [harith]
      simp only [hfill2]
      have hge1 : (1 : ℚ) ≤ min rl.maxTokens ((rl.refill now).tokens + 1) :=
        le_min hmax (by linarith)
      show (0 : ℚ) ≤ min rl.maxTokens ((rl.refill now).tokens + 1) - 1
      linarith
    · show (0 : ℚ) ≤ (rl.refill now).tokens - 1
      linarith

/-- After k ≤ 60 immediate acquires at t=0, the 60-per-minute limiter with
bucket 60 holds exactly 60 - k tokens. -/
theorem acquireN_sixty (k : ℕ) (hk : k ≤ 60) :
    acquireN (RateLimiter.init ⟨some 60⟩ 60 0) 0 k =
      ⟨⟨some 60⟩, 60, 60 - (k : ℚ), 0⟩ := by
  induction k with
  | zero => simp [acquireN, RateLimiter.init]
  | succ k ih =>
    have hk59 : k ≤ 59 := by omega
    have hkQ : (k : ℚ) ≤ 59 := by exact_mod_cast hk59
    have hkQ0 : (0 : ℚ) ≤ (k : ℚ) := by positivity
    rw [acquireN, ih (by omega)]
    have hfill : RateLimiter.refill ⟨⟨some 60⟩, 60, 60 - (k : ℚ), 0⟩ 0 =
        ⟨⟨some 60⟩, 60, 60 - (k : ℚ), 0⟩ := by
      simp only [RateLimiter.refill]
      norm_num
    simp only [RateLimiter.acquire, hfill]
    rw [if_neg (by simp only []; linarith : ¬ ((⟨⟨some 60⟩, 60, 60 - (k : ℚ), 0⟩ :
      RateLimiter).tokens < 1))]
    have hc : 60 - (k : ℚ) - 1 = 60 - ((k + 1 : ℕ) : ℚ) := by
      push_cast
      ring
    simp only []
    rw [hc]

/-- C7: acquire refills in proportion to elapsed time scaled by the
configured requests-per-minute, suspends for 60000/rpm ms (or the fixed
1000 ms default when no rate is configured) when fewer than one token is
available, refills again at the resume time, and then unconditionally
decrements one token. At 60 requests/minute with bucket size 60, the
first 60 immediate acquires complete without suspension and the 61st
suspends for 1000 ms (≥ 1000). -/
theorem acquire_refill_wait_decrement :
    (∀ (rl : RateLimiter) (now rpm : ℚ),
      rl.limits.requests_per_minute = some rpm → rpm ≠ 0 →
      rl.refill now = ⟨rl.limits, rl.maxTokens,
        min rl.maxTokens (rl.tokens + (now - rl.lastRefill) / 60000 * rpm), now⟩) ∧
    (∀ (rl : RateLimiter) (rpm : ℚ),
      rl.limits.requests_per_minute = some rpm → rpm ≠ 0 →
      rl.getWaitTime = 60000 / rpm) ∧
    (∀ rl : RateLimiter, rl.limits.requests_per_minute = none →
      rl.getWaitTime = 1000) ∧
    (∀ (rl : RateLimiter) (now : ℚ), (rl.refill now).tokens < 1 →
      rl.acquire now = (some (rl.refill now).getWaitTime,
        ⟨((rl.refill now).refill (now + (rl.refill now).getWaitTime)).limits,
         ((rl.refill now).refill (now + (rl.refill now).getWaitTime)).maxTokens,
         ((rl.refill now).refill (now + (rl.refill now).getWaitTime)).tokens - 1,
         ((rl.refill now).refill (now + (rl.refill now).getWaitTime)).lastRefill⟩)) ∧
    (∀ (rl : RateLimiter) (now : ℚ), ¬ (rl.refill now).tokens < 1 →
      rl.acquire now = (none, ⟨(rl.refill now).limits, (rl.refill now).maxTokens,
        (rl.refill now).tokens - 1, (rl.refill now).lastRefill⟩)) ∧
    (∀ k : ℕ, k < 60 →
      (RateLimiter.acquire (acquireN (RateLimiter.init ⟨some 60⟩ 60 0) 0 k) 0).1 = none) ∧
    ((RateLimiter.acquire (acquireN (RateLimiter.init ⟨some 60⟩ 60 0) 0 60) 0).1
      = some 1000 ∧ (1000 : ℚ) ≥ 1000) := by
  refine ⟨?_, ?_, ?_, ?_, ?_, ?_, ?_, le_refl _⟩
  · intro rl now rpm h hne
    simp only [RateLimiter.refill, h]
    rw [if_pos hne]
  · intro rl rpm h hne
    simp only [RateLimiter.getWaitTime, h]
    rw [if_pos hne]
  · intro rl h
    simp [RateLimiter.getWaitTime, h]
  · intro rl now hlt
    simp only [RateLimiter.acquire]
    rw [if_pos hlt]
  · intro rl now hge
    simp only [RateLimiter.acquire]
    rw [if_neg hge]
  · intro k hk
    have hkQ : (k : ℚ) ≤ 59 := by exact_mod_cast (by omega : k ≤ 59)
    rw [acquireN_sixty k (by omega)]
    have hfill : RateLimiter.refill ⟨⟨some 60⟩, 60, 60 - (k : ℚ), 0⟩ 0 =
        ⟨⟨some 60⟩, 60, 60 - (k : ℚ), 0⟩ := by
      simp only [RateLimiter.refill]
      norm_num
    simp only [RateLimiter.acquire, hfill]
    rw [if_neg (by simp only []; linarith : ¬ ((⟨⟨some 60⟩, 60, 60 - (k : ℚ), 0⟩ :
      RateLimiter).tokens < 1))]
  · rw [acquireN_sixty 60 (by omega)]
    have hfill : RateLimiter.refill ⟨⟨some 60⟩, 60, 60 - ((60 : ℕ) : ℚ), 0⟩ 0 =
        ⟨⟨some 60⟩, 60, 0, 0⟩ := by
      simp only [RateLimiter.refill]
      norm_num
    simp only [RateLimiter.acquire, hfill]
    rw [if_pos (by norm_num : ((⟨⟨some 60⟩, 60, 0, 0⟩ : RateLimiter).tokens < 1))]
    simp [RateLimiter.getWaitTime]
    norm_num

/-- Witness for C6's amended theorem: an exhausted 60-per-minute limiter
with capacity 60 stays within bounds across an acquire at time 0. -/
theorem rateLimiter_tokens_clamped_witness :
    (RateLimiter.acquire ⟨⟨some 60⟩, 60, 0, 0⟩ 0).2.tokens ≤ 60 ∧
    0 ≤ (RateLimiter.acquire ⟨⟨some 60⟩, 60, 0, 0⟩ 0).2.tokens :=
  ⟨(rateLimiter_tokens_clamped ⟨⟨some 60⟩, 60, 0, 0⟩ 0 (by norm_num)).1,
   (rateLimiter_tokens_clamped ⟨⟨some 60⟩, 60, 0, 0⟩ 0 (by norm_num)).2.2 60 rfl
     (by norm_num) (by norm_num) (by norm_num) (by norm_num)⟩

/-- Witness for C7: at 60 requests per minute the wait is 60000/60 ms, an
unconfigured limiter waits the fixed 1000 ms, and the first immediate
acquire does not suspend. -/
theorem acquire_refill_wait_decrement_witness :
    RateLimiter.getWaitTime ⟨⟨some 60⟩, 60, 60, 0⟩ = 60000 / 60 ∧
    RateLimiter.getWaitTime ⟨⟨none⟩, 60, 60, 0⟩ = 1000 ∧
    (RateLimiter.acquire (acquireN (RateLimiter.init ⟨some 60⟩ 60 0) 0 0) 0).1 = none :=
  ⟨acquire_refill_wait_decrement.2.1 ⟨⟨some 60⟩, 60, 60, 0⟩ 60 rfl (by norm_num),
   acquire_refill_wait_decrement.2.2.1 ⟨⟨none⟩, 60, 60, 0⟩ rfl,
   acquire_refill_wait_decrement.2.2.2.2.2.1 0 (by norm_num)⟩

end A22
